import Mathlib

/-
Verification of the configuration loader, the request-guard decorators and
the database wrapper of my_utility_package against their specification.

Python dictionaries that map strings to strings are modelled as association
lists ordered by insertion, with assignment semantics that overwrite in
place (dictGet, dictInsert, dictUpdate below).  Effects of external
libraries (the AWS secrets client, json.loads, python-dotenv) are modelled
as explicit oracle parameters; the functions of the repository are
translated statement by statement from src/my_utility_package.
-/

/-- Python dict lookup d.get(k): value of the first (hence, for a dict with
unique keys, the only) entry whose key is k, or None. -/
def dictGet : List (String × String) → String → Option String
  | [], _ => none
  | p :: rest, k => if p.1 = k then some p.2 else dictGet rest k

/-- Python dict assignment d[k] = v: overwrite the entry in place when the
key is present, otherwise append the new entry at the end (insertion
order). -/
def dictInsert (d : List (String × String)) (k v : String) : List (String × String) :=
  if (dictGet d k).isSome then
    d.map (fun p => if p.1 = k then (k, v) else p)
  else
    d ++ [(k, v)]

/-- Python d.update(src): assign every entry of src into d, in the order of
src, so that on a key collision the later writer wins. -/
def dictUpdate : List (String × String) → List (String × String) → List (String × String)
  | d, [] => d
  | d, p :: rest => dictUpdate (dictInsert d p.1 p.2) rest

/-- The keys of the association list are pairwise distinct; every list that
models an actual Python dict satisfies this. -/
def keysNodup (d : List (String × String)) : Prop :=
  (d.map Prod.fst).Nodup

instance (d : List (String × String)) : Decidable (keysNodup d) :=
  inferInstanceAs (Decidable ((d.map Prod.fst).Nodup))

/-! Constants of src/my_utility_package/config_loader.py. -/

def SHARED_SECRET_NAMES_LIST : String := "SHARED_SECRET_NAMES_LIST"

def AWS_DEFAULT_REGION : String := "AWS_DEFAULT_REGION"

/-- Exceptions that the embedded configuration-loading code can raise:
clientError is botocore ClientError escaping _retrieve_from_aws (the code
logs it and re-raises); typeError is the TypeError that Python raises when
dict.update is applied to None. -/
inductive PyError where
  | clientError (msg : String)
  | typeError
deriving DecidableEq

/-- The remote side of _retrieve_from_aws, as an oracle: for a secret name
and a region it either raises a ClientError (modelled as .error msg) or
returns cache.get_secret_string, which is a string payload or None.
_retrieve_from_aws itself only logs and re-raises, so it is the oracle. -/
def AwsOracle : Type := String → String → Except String (Option String)

/-- Oracle for json.loads applied to a secret payload: the parsed sequence
of key/value pairs of the JSON object, in textual order.  The code stores
the parse in a Python dict, so duplicate keys collapse with the later
occurrence winning; handle_secrets_from_aws applies dictUpdate [] to model
that. -/
def JsonObjOracle : Type := String → List (String × String)

/-- Oracle for json.loads applied to the configured secret-name list: the
parsed JSON array of strings, in literal order. -/
def JsonListOracle : Type := String → List String

/-- ConfigLoader._handle_secrets_from_aws(secret_name, region_name):
returns None when either argument is None; when both are non-empty it
calls _retrieve_from_aws and, if the payload is None returns None, if the
payload is empty returns an empty dict, otherwise the parsed dict (the
for-loop over secrets.items() reassigns each value to itself and is a
no-op); when either argument is an empty string the function falls off the
end and returns None without any remote call.  A ClientError from
_retrieve_from_aws propagates. -/
def handle_secrets_from_aws (aws : AwsOracle) (jsonObj : JsonObjOracle)
    (secret_name region_name : Option String) :
    Except PyError (Option (List (String × String))) :=
  match secret_name, region_name with
  | some n, some r =>
    if 0 < n.length ∧ 0 < r.length then
      match aws n r with
      | .error msg => .error (PyError.clientError msg)
      | .ok none => .ok none
      | .ok (some aws_data) =>
        if 0 < aws_data.length then
          .ok (some (dictUpdate [] (jsonObj aws_data)))
        else
          .ok (some [])
    else
      .ok none
  | _, _ => .ok none

/-- The loop of ConfigLoader._load_shared_secrets: for each secret name, in
the literal order of the list, shared_secrets.update the result of
_handle_secrets_from_aws.  When that result is None, dict.update(None)
raises TypeError; a ClientError propagates unchanged. -/
def merge_secret_names (aws : AwsOracle) (jsonObj : JsonObjOracle)
    (region_name : Option String) :
    List String → List (String × String) → Except PyError (List (String × String))
  | [], shared_secrets => .ok shared_secrets
  | secret_name :: rest, shared_secrets =>
    match handle_secrets_from_aws aws jsonObj (some secret_name) region_name with
    | .error e => .error e
    | .ok none => .error PyError.typeError
    | .ok (some d) => merge_secret_names aws jsonObj region_name rest (dictUpdate shared_secrets d)

/-- ConfigLoader._load_shared_secrets: reads SHARED_SECRET_NAMES_LIST and
AWS_DEFAULT_REGION from the configurations loaded so far; if the name list
is absent returns an empty dict, otherwise decodes the JSON array and
merges the fetched secrets in order. -/
def load_shared_secrets (aws : AwsOracle) (jsonObj : JsonObjOracle)
    (jsonList : JsonListOracle) (configurations : List (String × String)) :
    Except PyError (List (String × String)) :=
  match dictGet configurations SHARED_SECRET_NAMES_LIST with
  | none => .ok []
  | some env_list =>
    merge_secret_names aws jsonObj (dictGet configurations AWS_DEFAULT_REGION)
      (jsonList env_list) []

/-- python-dotenv load_dotenv(config_file) with its default override=False:
each entry of the parsed file is written into the process environment only
when its key is not already present; existing environment variables are
never overwritten.  env is the ambient process environment before the
call, file the parsed content of the .env file (empty when the file is
absent or config_file is None). -/
def load_dotenv : List (String × String) → List (String × String) → List (String × String)
  | env, [] => env
  | env, p :: rest =>
    if (dictGet env p.1).isSome then
      load_dotenv env rest
    else
      load_dotenv (env ++ [p]) rest

/-- ConfigLoader._load_configuration_from_env: calls load_dotenv on the
config file, then copies every entry of os.environ into a fresh dict and
returns it. -/
def load_configuration_from_env (env : List (String × String))
    (file : List (String × String)) : List (String × String) :=
  dictUpdate [] (load_dotenv env file)

/-- ConfigLoader._get_app_configuration, run on the empty configurations
dict that __init__ creates: update with _load_configuration_from_env
(which never returns None), then update with _load_shared_secrets (which
never returns None).  Any exception is logged and re-raised, so errors
propagate unchanged and no store is produced. -/
def get_app_configuration (env file : List (String × String)) (aws : AwsOracle)
    (jsonObj : JsonObjOracle) (jsonList : JsonListOracle) :
    Except PyError (List (String × String)) :=
  let configuration := load_configuration_from_env env file
  let configurations := dictUpdate [] configuration
  match load_shared_secrets aws jsonObj jsonList configurations with
  | .error e => .error e
  | .ok shared_secrets => .ok (dictUpdate configurations shared_secrets)

/-! Constants of src/my_utility_package/check_api_key_decorator.py. -/

def X_API_KEY : String := "X-API-Key"

def INVALID_OR_MISSING_API_KEY : String := "API key is invalid or is missing."

/-- The wrapper produced by check_api_key: reads the X-API-Key header of
the bound request (headers.get, hence None when absent), and the bound
APP_API_KEY expected value (None models a None binding).  When both are
non-None and equal it calls the wrapped function on the original
arguments and returns its result; otherwise it raises AttributeError with
the fixed message and never calls the wrapped function. -/
def check_api_key {α β : Type} (headers : List (String × String))
    (app_api_key : Option String) (func : α → β) (a : α) : Except String β :=
  match dictGet headers X_API_KEY, app_api_key with
  | some api_key_header_value, some expected =>
    if api_key_header_value = expected then
      .ok (func a)
    else
      .error INVALID_OR_MISSING_API_KEY
  | _, _ => .error INVALID_OR_MISSING_API_KEY

/-- Python values that can be bound as the DUMMY_ACTIVE flag, with their
truthiness. -/
inductive PyVal where
  | none
  | bool (b : Bool)
  | int (n : Int)
  | str (s : String)
deriving DecidableEq

/-- Python truthiness of a PyVal: None, False, 0 and the empty string are
falsy; everything else is truthy. -/
def truthy : PyVal → Bool
  | PyVal.none => false
  | PyVal.bool b => b
  | PyVal.int n => decide (n ≠ 0)
  | PyVal.str s => decide (s.length ≠ 0)

/-- The wrapper produced by conditioned_dummy_response: when the bound
DUMMY_ACTIVE value is truthy it returns the tuple (DUMMY_RESPONSE, 200)
without calling the route function; otherwise it calls the route function
on the original arguments and returns its result unchanged.  The sum
distinguishes the canned tuple from a route result. -/
def conditioned_dummy_response {α β γ : Type} (dummy_active : PyVal)
    (dummy_response : β) (route_func : α → γ) (a : α) : (β × Nat) ⊕ γ :=
  if truthy dummy_active then
    Sum.inl (dummy_response, 200)
  else
    Sum.inr (route_func a)

/-- State of src/my_utility_package/database_connection.py after
__init__ set the three attributes: each is None until _connect assigns
it.  The session factory, when established, produces a session on each
call. -/
structure DatabaseConnection (E S M : Type) where
  engine : Option E
  session_factory : Option (Unit → S)
  metadata : Option M

/-- DatabaseConnection.get_session: when self.session_factory is set
(a sessionmaker object is always truthy, None is falsy) return
session_factory(); otherwise raise ConnectionError with the fixed
message. -/
def get_session {E S M : Type} (db : DatabaseConnection E S M) : Except String S :=
  match db.session_factory with
  | some session_factory => .ok (session_factory ())
  | none => .error "Database connection not established"

/-! Basic lemmas about the dict model. -/

theorem keysNodup_nil : keysNodup [] := List.nodup_nil

theorem dictGet_append_some : ∀ (d : List (String × String)) (l : List (String × String))
    (k w : String), dictGet d k = some w → dictGet (d ++ l) k = some w
  | [], _, _, _, h => by simp [dictGet] at h
  | p :: rest, l, k, w, h => by
    by_cases hp : p.1 = k
    · simpa [dictGet, hp] using h
    · simp only [dictGet, hp, if_false] at h
      simpa [dictGet, hp] using dictGet_append_some rest l k w h

theorem dictGet_append_none : ∀ (d : List (String × String)) (l : List (String × String))
    (k : String), dictGet d k = none → dictGet (d ++ l) k = dictGet l k
  | [], _, _, _ => rfl
  | p :: rest, l, k, h => by
    by_cases hp : p.1 = k
    · simp [dictGet, hp] at h
    · simp only [dictGet, hp, if_false] at h
      simpa [dictGet, hp] using dictGet_append_none rest l k h

theorem dictGet_eq_none_iff : ∀ (d : List (String × String)) (k : String),
    dictGet d k = none ↔ k ∉ d.map Prod.fst
  | [], k => by simp [dictGet]
  | p :: rest, k => by
    by_cases hp : p.1 = k
    · simp [dictGet, hp]
    · simp [dictGet, hp, dictGet_eq_none_iff rest k, Ne.symm hp]

theorem dictGet_map_overwrite : ∀ (d : List (String × String)) (k v : String),
    (dictGet d k).isSome = true →
    dictGet (d.map (fun p => if p.1 = k then (k, v) else p)) k = some v
  | [], _, _, h => by simp [dictGet] at h
  | p :: rest, k, v, h => by
    by_cases hp : p.1 = k
    · simp [dictGet, hp]
    · simp only [dictGet, hp, if_false] at h
      simpa [dictGet, hp] using dictGet_map_overwrite rest k v h

theorem dictGet_map_overwrite_ne : ∀ (d : List (String × String)) (k v k' : String),
    k' ≠ k →
    dictGet (d.map (fun p => if p.1 = k then (k, v) else p)) k' = dictGet d k'
  | [], _, _, _, _ => rfl
  | p :: rest, k, v, k', hne => by
    by_cases hp : p.1 = k
    · have hk : k ≠ k' := Ne.symm hne
      simpa [dictGet, hp, hk, hp ▸ hk] using dictGet_map_overwrite_ne rest k v k' hne
    · by_cases hp' : p.1 = k'
      · simp [dictGet, hp, hp', hne]
      · simpa [dictGet, hp, hp'] using dictGet_map_overwrite_ne rest k v k' hne

theorem dictGet_dictInsert_self (d : List (String × String)) (k v : String) :
    dictGet (dictInsert d k v) k = some v := by
  unfold dictInsert
  by_cases h : (dictGet d k).isSome = true
  · rw [if_pos h]
    exact dictGet_map_overwrite d k v h
  · rw [if_neg h]
    have hn : dictGet d k = none := by
      cases hg : dictGet d k with
      | none => rfl
      | some w => exact absurd (by rw [hg]; rfl) h
    rw [dictGet_append_none d _ k hn]
    simp [dictGet]

theorem dictGet_dictInsert_ne (d : List (String × String)) (k v k' : String)
    (hne : k' ≠ k) : dictGet (dictInsert d k v) k' = dictGet d k' := by
  unfold dictInsert
  by_cases h : (dictGet d k).isSome = true
  · rw [if_pos h]
    exact dictGet_map_overwrite_ne d k v k' hne
  · rw [if_neg h]
    cases hg : dictGet d k' with
    | some w => exact dictGet_append_some d _ k' w hg
    | none =>
      rw [dictGet_append_none d _ k' hg]
      simp [dictGet, Ne.symm hne]

theorem keysNodup_dictInsert (d : List (String × String)) (k v : String)
    (h : keysNodup d) : keysNodup (dictInsert d k v) := by
  unfold dictInsert
  by_cases hs : (dictGet d k).isSome = true
  · rw [if_pos hs]
    have hkeys : (d.map (fun p => if p.1 = k then (k, v) else p)).map Prod.fst
        = d.map Prod.fst := by
      rw [List.map_map]
      apply List.map_congr_left
      intro p _
      by_cases hp : p.1 = k
      · simp [hp]
      · simp [hp]
    unfold keysNodup
    rw [hkeys]
    exact h
  · rw [if_neg hs]
    have hn : dictGet d k = none := by
      cases hg : dictGet d k with
      | none => rfl
      | some w => exact absurd (by rw [hg]; rfl) hs
    have hk : k ∉ d.map Prod.fst := (dictGet_eq_none_iff d k).mp hn
    unfold keysNodup
    rw [List.map_append]
    simp [List.nodup_append, hk]
    exact h

theorem keysNodup_dictUpdate : ∀ (src d : List (String × String)),
    keysNodup d → keysNodup (dictUpdate d src)
  | [], _, h => h
  | p :: rest, d, h =>
    keysNodup_dictUpdate rest (dictInsert d p.1 p.2) (keysNodup_dictInsert d p.1 p.2 h)

theorem dictGet_dictUpdate_not_mem : ∀ (src d : List (String × String)) (k : String),
    k ∉ src.map Prod.fst → dictGet (dictUpdate d src) k = dictGet d k
  | [], _, _, _ => rfl
  | p :: rest, d, k, h => by
    simp only [List.map_cons, List.mem_cons, not_or] at h
    rw [dictUpdate]
    rw [dictGet_dictUpdate_not_mem rest _ k h.2]
    exact dictGet_dictInsert_ne d p.1 p.2 k h.1

theorem dictGet_dictUpdate_none (src d : List (String × String)) (k : String)
    (h : dictGet src k = none) : dictGet (dictUpdate d src) k = dictGet d k :=
  dictGet_dictUpdate_not_mem src d k ((dictGet_eq_none_iff src k).mp h)

theorem dictGet_dictUpdate_some : ∀ (src d : List (String × String)) (k v : String),
    keysNodup src → dictGet src k = some v → dictGet (dictUpdate d src) k = some v
  | [], _, _, _, _, h => by simp [dictGet] at h
  | p :: rest, d, k, v, hnd, h => by
    have hcons : p.1 ∉ rest.map Prod.fst ∧ keysNodup rest := by
      simpa [keysNodup, List.nodup_cons] using hnd
    by_cases hp : p.1 = k
    · have hv : p.2 = v := by simpa [dictGet, hp] using h
      have hk : k ∉ rest.map Prod.fst := hp ▸ hcons.1
      rw [dictUpdate, dictGet_dictUpdate_not_mem rest _ k hk, ← hp, ← hv]
      exact dictGet_dictInsert_self d p.1 p.2
    · simp only [dictGet, hp, if_false] at h
      rw [dictUpdate]
      exact dictGet_dictUpdate_some rest _ k v hcons.2 h

theorem dictUpdate_fresh : ∀ (src d : List (String × String)),
    (∀ p ∈ src, dictGet d p.1 = none) → keysNodup src → dictUpdate d src = d ++ src
  | [], d, _, _ => by simp [dictUpdate]
  | p :: rest, d, hf, hnd => by
    have hcons : p.1 ∉ rest.map Prod.fst ∧ keysNodup rest := by
      simpa [keysNodup, List.nodup_cons] using hnd
    have h0 : dictGet d p.1 = none := hf p (List.mem_cons_self p rest)
    have hins : dictInsert d p.1 p.2 = d ++ [p] := by
      unfold dictInsert
      rw [if_neg (by rw [h0]; simp)]
    rw [dictUpdate, hins]
    rw [dictUpdate_fresh rest (d ++ [p]) ?_ hcons.2]
    · simp
    · intro q hq
      have hq0 : dictGet d q.1 = none := hf q (List.mem_cons_of_mem p hq)
      have hqp : ¬p.1 = q.1 := by
        intro he
        exact hcons.1 (he ▸ List.mem_map_of_mem Prod.fst hq)
      rw [dictGet_append_none d _ q.1 hq0]
      simp [dictGet, hqp]

theorem dictUpdate_nil_of_nodup (src : List (String × String)) (h : keysNodup src) :
    dictUpdate [] src = src := by
  rw [dictUpdate_fresh src [] (fun _ _ => rfl) h]
  simp

/-! Lemmas about load_dotenv. -/

theorem dictGet_load_dotenv_some : ∀ (file env : List (String × String)) (k w : String),
    dictGet env k = some w → dictGet (load_dotenv env file) k = some w
  | [], _, _, _, h => h
  | p :: rest, env, k, w, h => by
    rw [load_dotenv]
    by_cases hc : (dictGet env p.1).isSome = true
    · rw [if_pos hc]
      exact dictGet_load_dotenv_some rest env k w h
    · rw [if_neg hc]
      exact dictGet_load_dotenv_some rest _ k w (dictGet_append_some env _ k w h)

theorem dictGet_load_dotenv_mem : ∀ (file env : List (String × String)) (k v : String),
    keysNodup file → (k, v) ∈ file → dictGet env k = none →
    dictGet (load_dotenv env file) k = some v
  | [], _, _, _, _, hmem, _ => absurd hmem (List.not_mem_nil _)
  | p :: rest, env, k, v, hnd, hmem, henv => by
    have hcons : p.1 ∉ rest.map Prod.fst ∧ keysNodup rest := by
      simpa [keysNodup, List.nodup_cons] using hnd
    by_cases hp : p.1 = k
    · have hpv : p = (k, v) := by
        cases List.mem_cons.mp hmem with
        | inl h => exact h.symm
        | inr h => exact absurd (List.mem_map_of_mem Prod.fst h) (hp ▸ hcons.1)
      rw [load_dotenv]
      rw [if_neg (by rw [hp, henv]; simp)]
      apply dictGet_load_dotenv_some rest _ k v
      rw [dictGet_append_none env _ k henv, hpv]
      simp [dictGet]
    · have hmem' : (k, v) ∈ rest := by
        cases List.mem_cons.mp hmem with
        | inl h => exact absurd (by rw [← h]) hp
        | inr h => exact h
      rw [load_dotenv]
      by_cases hc : (dictGet env p.1).isSome = true
      · rw [if_pos hc]
        exact dictGet_load_dotenv_mem rest env k v hcons.2 hmem' henv
      · rw [if_neg hc]
        apply dictGet_load_dotenv_mem rest _ k v hcons.2 hmem'
        rw [dictGet_append_none env _ k henv]
        simp [dictGet, hp]

theorem keysNodup_load_dotenv : ∀ (file env : List (String × String)),
    keysNodup env → keysNodup (load_dotenv env file)
  | [], _, h => h
  | p :: rest, env, h => by
    rw [load_dotenv]
    by_cases hc : (dictGet env p.1).isSome = true
    · rw [if_pos hc]
      exact keysNodup_load_dotenv rest env h
    · rw [if_neg hc]
      apply keysNodup_load_dotenv rest
      have hn : dictGet env p.1 = none := by
        cases hg : dictGet env p.1 with
        | none => rfl
        | some w => exact absurd (by rw [hg]; rfl) hc
      have hk : p.1 ∉ env.map Prod.fst := (dictGet_eq_none_iff env p.1).mp hn
      unfold keysNodup
      rw [List.map_append]
      simp [List.nodup_append, hk]
      exact h

/-! Lemmas about the secret-fetching pipeline. -/

theorem handle_ok_nodup (aws : AwsOracle) (jsonObj : JsonObjOracle)
    (sn rn : Option String) (d : List (String × String))
    (h : handle_secrets_from_aws aws jsonObj sn rn = .ok (some d)) : keysNodup d := by
  unfold handle_secrets_from_aws at h
  cases sn with
  | none => simp at h
  | some n =>
    cases rn with
    | none => simp at h
    | some r =>
      simp only at h
      by_cases hlen : 0 < n.length ∧ 0 < r.length
      · rw [if_pos hlen] at h
        cases haws : aws n r with
        | error msg => rw [haws] at h; simp at h
        | ok o =>
          rw [haws] at h
          cases o with
          | none => simp at h
          | some aws_data =>
            simp only at h
            by_cases hdl : 0 < aws_data.length
            · rw [if_pos hdl] at h
              have hd : d = dictUpdate [] (jsonObj aws_data) := by
                cases h; rfl
              rw [hd]
              exact keysNodup_dictUpdate (jsonObj aws_data) [] keysNodup_nil
            · rw [if_neg hdl] at h
              have hd : d = [] := by cases h; rfl
              rw [hd]
              exact keysNodup_nil
      · rw [if_neg hlen] at h
        simp at h

theorem merge_nodup (aws : AwsOracle) (jsonObj : JsonObjOracle) (rn : Option String) :
    ∀ (l : List String) (acc res : List (String × String)),
    keysNodup acc → merge_secret_names aws jsonObj rn l acc = .ok res → keysNodup res
  | [], acc, res, hacc, h => by
    rw [merge_secret_names] at h
    cases h
    exact hacc
  | n :: rest, acc, res, hacc, h => by
    rw [merge_secret_names] at h
    cases hh : handle_secrets_from_aws aws jsonObj (some n) rn with
    | error e => rw [hh] at h; simp at h
    | ok o =>
      rw [hh] at h
      cases o with
      | none => simp at h
      | some d =>
        exact merge_nodup aws jsonObj rn rest (dictUpdate acc d) res
          (keysNodup_dictUpdate d acc hacc) h

theorem load_shared_secrets_nodup (aws : AwsOracle) (jsonObj : JsonObjOracle)
    (jsonList : JsonListOracle) (config secrets : List (String × String))
    (h : load_shared_secrets aws jsonObj jsonList config = .ok secrets) :
    keysNodup secrets := by
  unfold load_shared_secrets at h
  cases hg : dictGet config SHARED_SECRET_NAMES_LIST with
  | none =>
    rw [hg] at h
    cases h
    exact keysNodup_nil
  | some env_list =>
    rw [hg] at h
    exact merge_nodup aws jsonObj (dictGet config AWS_DEFAULT_REGION)
      (jsonList env_list) [] secrets keysNodup_nil h

theorem merge_append_ok (aws : AwsOracle) (jsonObj : JsonObjOracle) (rn : Option String) :
    ∀ (l1 l2 : List String) (acc mid : List (String × String)),
    merge_secret_names aws jsonObj rn l1 acc = .ok mid →
    merge_secret_names aws jsonObj rn (l1 ++ l2) acc =
      merge_secret_names aws jsonObj rn l2 mid
  | [], l2, acc, mid, h => by
    rw [merge_secret_names] at h
    cases h
    rfl
  | n :: rest, l2, acc, mid, h => by
    rw [merge_secret_names] at h
    rw [List.cons_append, merge_secret_names]
    revert h
    cases handle_secrets_from_aws aws jsonObj (some n) rn with
    | error e => intro h; exact Except.noConfusion h
    | ok o =>
      cases o with
      | none => intro h; exact Except.noConfusion h
      | some d =>
        intro h
        exact merge_append_ok aws jsonObj rn rest l2 (dictUpdate acc d) mid h

theorem merge_split_ok (aws : AwsOracle) (jsonObj : JsonObjOracle) (rn : Option String) :
    ∀ (l1 l2 : List String) (acc res : List (String × String)),
    merge_secret_names aws jsonObj rn (l1 ++ l2) acc = .ok res →
    ∃ mid, merge_secret_names aws jsonObj rn l1 acc = .ok mid ∧
      merge_secret_names aws jsonObj rn l2 mid = .ok res
  | [], l2, acc, res, h => ⟨acc, rfl, h⟩
  | n :: rest, l2, acc, res, h => by
    rw [List.cons_append, merge_secret_names] at h
    cases hh : handle_secrets_from_aws aws jsonObj (some n) rn with
    | error e => rw [hh] at h; simp at h
    | ok o =>
      rw [hh] at h
      cases o with
      | none => simp at h
      | some d =>
        obtain ⟨mid, h1, h2⟩ := merge_split_ok aws jsonObj rn rest l2 (dictUpdate acc d) res h
        refine ⟨mid, ?_, h2⟩
        rw [merge_secret_names, hh]
        exact h1

theorem merge_ok_of_all_some (aws : AwsOracle) (jsonObj : JsonObjOracle) (rn : Option String) :
    ∀ (l : List String) (acc : List (String × String)),
    (∀ n ∈ l, ∃ d, handle_secrets_from_aws aws jsonObj (some n) rn = .ok (some d)) →
    ∃ res, merge_secret_names aws jsonObj rn l acc = .ok res
  | [], acc, _ => ⟨acc, rfl⟩
  | n :: rest, acc, hall => by
    obtain ⟨d, hd⟩ := hall n (List.mem_cons_self n rest)
    obtain ⟨res, hres⟩ := merge_ok_of_all_some aws jsonObj rn rest (dictUpdate acc d)
      (fun m hm => hall m (List.mem_cons_of_mem n hm))
    refine ⟨res, ?_⟩
    rw [merge_secret_names, hd]
    exact hres

theorem merge_preserves_get (aws : AwsOracle) (jsonObj : JsonObjOracle) (rn : Option String)
    (k : String) : ∀ (l : List String) (acc res : List (String × String)),
    (∀ m ∈ l, ∀ dm, handle_secrets_from_aws aws jsonObj (some m) rn = .ok (some dm) →
      dictGet dm k = none) →
    merge_secret_names aws jsonObj rn l acc = .ok res →
    dictGet res k = dictGet acc k
  | [], acc, res, _, h => by
    rw [merge_secret_names] at h
    cases h
    rfl
  | n :: rest, acc, res, hall, h => by
    rw [merge_secret_names] at h
    cases hh : handle_secrets_from_aws aws jsonObj (some n) rn with
    | error e => rw [hh] at h; simp at h
    | ok o =>
      rw [hh] at h
      cases o with
      | none => simp at h
      | some d =>
        have hd : dictGet d k = none := hall n (List.mem_cons_self n rest) d hh
        rw [merge_preserves_get aws jsonObj rn k rest (dictUpdate acc d) res
          (fun m hm => hall m (List.mem_cons_of_mem n hm)) h]
        exact dictGet_dictUpdate_none d acc k hd

/-- C1: construction merges the local environment mapping into the store
first and the shared secrets second, so every key that the shared secrets
define ends up in the store with the remote value (last-writer-wins, not
union), while keys the secrets do not define keep their local value. -/
theorem C1_remote_secrets_override_local (env file : List (String × String))
    (aws : AwsOracle) (jsonObj : JsonObjOracle) (jsonList : JsonListOracle)
    (store secrets : List (String × String))
    (hstore : get_app_configuration env file aws jsonObj jsonList = .ok store)
    (hsec : load_shared_secrets aws jsonObj jsonList
      (dictUpdate [] (load_configuration_from_env env file)) = .ok secrets) :
    (∀ k v, dictGet secrets k = some v → dictGet store k = some v) ∧
    (∀ k, dictGet secrets k = none →
      dictGet store k = dictGet (dictUpdate [] (load_configuration_from_env env file)) k) := by
  have hst : store =
      dictUpdate (dictUpdate [] (load_configuration_from_env env file)) secrets := by
    simp only [get_app_configuration] at hstore
    rw [hsec] at hstore
    exact (Except.ok.inj hstore).symm
  constructor
  · intro k v hv
    rw [hst]
    exact dictGet_dictUpdate_some secrets _ k v
      (load_shared_secrets_nodup aws jsonObj jsonList _ secrets hsec) hv
  · intro k hk
    rw [hst]
    exact dictGet_dictUpdate_none secrets _ k hk

theorem C1_remote_secrets_override_local_witness :
    dictGet [("AWS_DEFAULT_REGION", "us-east-1"), ("X", "remote"),
      ("SHARED_SECRET_NAMES_LIST", "names"), ("Y", "2")] "X" = some "remote" :=
  (C1_remote_secrets_override_local
    [("AWS_DEFAULT_REGION", "us-east-1"), ("X", "local")]
    [("SHARED_SECRET_NAMES_LIST", "names")]
    (fun _ _ => Except.ok (some "payload1"))
    (fun _ => [("X", "remote"), ("Y", "2")])
    (fun _ => ["s1"])
    [("AWS_DEFAULT_REGION", "us-east-1"), ("X", "remote"),
      ("SHARED_SECRET_NAMES_LIST", "names"), ("Y", "2")]
    [("X", "remote"), ("Y", "2")]
    rfl rfl).1 "X" "remote" rfl

/-- C2: _handle_secrets_from_aws does return None, without consulting the
remote oracle, when the region is None or the secret name is empty (first
and second conjuncts hold for every oracle); but _load_shared_secrets then
applies dict.update to that None and raises TypeError instead of treating
it as no secret: with the name list configured and AWS_DEFAULT_REGION
absent, the load fails with TypeError (third conjunct). -/
theorem C2_none_secret_raises_type_error (aws : AwsOracle) (jsonObj : JsonObjOracle) :
    handle_secrets_from_aws aws jsonObj (some "s1") none = .ok none ∧
    handle_secrets_from_aws aws jsonObj (some "") (some "us-east-1") = .ok none ∧
    load_shared_secrets aws jsonObj (fun _ => ["s1"])
      [(SHARED_SECRET_NAMES_LIST, "names")] = .error PyError.typeError :=
  ⟨rfl, rfl, rfl⟩

/-- C3: when the fetch of one secret in the configured list raises a remote
client error, the error propagates, the whole load aborts and the
construction returns the error: no store is produced, so nothing fetched
before the failing secret reaches the store. -/
theorem C3_client_error_aborts_construction (env file : List (String × String))
    (aws : AwsOracle) (jsonObj : JsonObjOracle) (jsonList : JsonListOracle)
    (s msg bad : String) (pre rest : List String)
    (hconf : dictGet (dictUpdate [] (load_configuration_from_env env file))
      SHARED_SECRET_NAMES_LIST = some s)
    (hsplit : jsonList s = pre ++ bad :: rest)
    (hpre : ∀ n ∈ pre, ∃ d, handle_secrets_from_aws aws jsonObj (some n)
      (dictGet (dictUpdate [] (load_configuration_from_env env file)) AWS_DEFAULT_REGION)
      = .ok (some d))
    (hbad : handle_secrets_from_aws aws jsonObj (some bad)
      (dictGet (dictUpdate [] (load_configuration_from_env env file)) AWS_DEFAULT_REGION)
      = .error (PyError.clientError msg)) :
    get_app_configuration env file aws jsonObj jsonList =
      .error (PyError.clientError msg) := by
  obtain ⟨mid, hmid⟩ := merge_ok_of_all_some aws jsonObj
    (dictGet (dictUpdate [] (load_configuration_from_env env file)) AWS_DEFAULT_REGION)
    pre [] hpre
  have hload : load_shared_secrets aws jsonObj jsonList
      (dictUpdate [] (load_configuration_from_env env file)) =
      .error (PyError.clientError msg) := by
    unfold load_shared_secrets
    rw [hconf]
    show merge_secret_names aws jsonObj
      (dictGet (dictUpdate [] (load_configuration_from_env env file)) AWS_DEFAULT_REGION)
      (jsonList s) [] = _
    rw [hsplit, merge_append_ok aws jsonObj _ pre (bad :: rest) [] mid hmid,
      merge_secret_names, hbad]
  simp only [get_app_configuration]
  rw [hload]

theorem C3_client_error_aborts_construction_witness :
    get_app_configuration [("AWS_DEFAULT_REGION", "r1")]
      [("SHARED_SECRET_NAMES_LIST", "names")]
      (fun n _ => if n = "a" then Except.ok (some "pa") else Except.error "denied")
      (fun _ => [("K", "V")]) (fun _ => ["a", "b", "c"]) =
      Except.error (PyError.clientError "denied") :=
  C3_client_error_aborts_construction _ _ _ _ _ "names" "denied" "b" ["a"] ["c"]
    rfl rfl
    (fun n hn => by
      rw [List.mem_singleton] at hn
      subst hn
      exact ⟨[("K", "V")], rfl⟩)
    rfl

/-- C4: the secrets are merged in the literal order of the JSON array, and a
key defined by more than one secret ends up with the value of the secret
that appears last among those defining it. -/
theorem C4_later_secret_wins (aws : AwsOracle) (jsonObj : JsonObjOracle)
    (jsonList : JsonListOracle) (config : List (String × String))
    (s k v n : String) (pre post : List String) (d res : List (String × String))
    (hconf : dictGet config SHARED_SECRET_NAMES_LIST = some s)
    (hsplit : jsonList s = pre ++ n :: post)
    (hn : handle_secrets_from_aws aws jsonObj (some n)
      (dictGet config AWS_DEFAULT_REGION) = .ok (some d))
    (hd : dictGet d k = some v)
    (hpost : ∀ m ∈ post, ∀ dm, handle_secrets_from_aws aws jsonObj (some m)
      (dictGet config AWS_DEFAULT_REGION) = .ok (some dm) → dictGet dm k = none)
    (hres : load_shared_secrets aws jsonObj jsonList config = .ok res) :
    dictGet res k = some v := by
  unfold load_shared_secrets at hres
  rw [hconf] at hres
  change merge_secret_names aws jsonObj (dictGet config AWS_DEFAULT_REGION)
    (jsonList s) [] = Except.ok res at hres
  rw [hsplit] at hres
  obtain ⟨mid, hmid1, hmid2⟩ := merge_split_ok aws jsonObj
    (dictGet config AWS_DEFAULT_REGION) pre (n :: post) [] res hres
  rw [merge_secret_names, hn] at hmid2
  change merge_secret_names aws jsonObj (dictGet config AWS_DEFAULT_REGION)
    post (dictUpdate mid d) = Except.ok res at hmid2
  rw [merge_preserves_get aws jsonObj (dictGet config AWS_DEFAULT_REGION) k post
    (dictUpdate mid d) res hpost hmid2]
  exact dictGet_dictUpdate_some d mid k v
    (handle_ok_nodup aws jsonObj (some n) (dictGet config AWS_DEFAULT_REGION) d hn) hd

theorem C4_later_secret_wins_witness :
    dictGet [("x", "2"), ("y", "3")] "x" = some "2" :=
  C4_later_secret_wins
    (fun n _ => Except.ok (some n))
    (fun s => if s = "a" then [("x", "1")] else [("x", "2"), ("y", "3")])
    (fun _ => ["a", "b"])
    [("SHARED_SECRET_NAMES_LIST", "names"), ("AWS_DEFAULT_REGION", "r")]
    "names" "x" "2" "b" ["a"] [] [("x", "2"), ("y", "3")] [("x", "2"), ("y", "3")]
    rfl rfl rfl rfl
    (fun m hm => absurd hm (List.not_mem_nil m))
    rfl

/-- C5: when the well-known secret-name-list key is absent from the loaded
configuration, _load_shared_secrets returns the empty mapping and raises no
error; the statement holds for every remote oracle, so no remote call can
influence the result. -/
theorem C5_absent_name_list (aws : AwsOracle) (jsonObj : JsonObjOracle)
    (jsonList : JsonListOracle) (config : List (String × String))
    (h : dictGet config SHARED_SECRET_NAMES_LIST = none) :
    load_shared_secrets aws jsonObj jsonList config = .ok [] := by
  unfold load_shared_secrets
  rw [h]

theorem C5_absent_name_list_witness :
    load_shared_secrets (fun _ _ => Except.error "unreachable") (fun _ => [])
      (fun _ => []) [("A", "1")] = Except.ok [] :=
  C5_absent_name_list _ _ _ _ rfl

/-- C6 counterexample: with the ambient environment holding A=ambient and a
well-formed local source defining A=fromfile, the mapping returned by
_load_configuration_from_env keeps the ambient value, because load_dotenv
with its default override=False never overwrites an existing variable; so
the result does not map the key to the value the source defines. -/
theorem C6_counterexample_ambient_wins :
    dictGet (load_configuration_from_env [("A", "ambient")] [("A", "fromfile")]) "A"
      ≠ some "fromfile" := by
  decide

/-- C6 amended: the returned mapping contains every key of the well-formed
local source; a key not already present in the ambient environment is
mapped to the value the source defines, while a key already present keeps
its prior ambient value. -/
theorem C6_local_source_loaded (env file : List (String × String))
    (henv : keysNodup env) (hfile : keysNodup file) (k v : String)
    (hmem : (k, v) ∈ file) :
    dictGet (load_configuration_from_env env file) k =
      some ((dictGet env k).getD v) := by
  unfold load_configuration_from_env
  rw [dictUpdate_nil_of_nodup _ (keysNodup_load_dotenv file env henv)]
  cases hg : dictGet env k with
  | some w => exact dictGet_load_dotenv_some file env k w hg
  | none => exact dictGet_load_dotenv_mem file env k v hfile hmem hg

theorem C6_local_source_loaded_witness :
    dictGet (load_configuration_from_env [("A", "ambient")]
      [("A", "fromfile"), ("B", "2")]) "B" = some "2" :=
  C6_local_source_loaded [("A", "ambient")] [("A", "fromfile"), ("B", "2")]
    (by decide) (by decide) "B" "2" (by decide)

/-- C7: the Access Guard admits exactly an exact match of the X-API-Key
header and the expected credential, in which case the handler runs on the
original argument and its result is returned unchanged; if the header is
absent, the expected value is absent, or they differ, it raises the fixed
message API key is invalid or is missing, and no handler is ever invoked. -/
theorem C7_access_guard {α β : Type} (headers : List (String × String))
    (expected : Option String) (f : α → β) (a : α) :
    (∀ s, dictGet headers X_API_KEY = some s → expected = some s →
      check_api_key headers expected f a = .ok (f a)) ∧
    ((dictGet headers X_API_KEY = none ∨ expected = none ∨
        dictGet headers X_API_KEY ≠ expected) →
      ∀ g : α → β, check_api_key headers expected g a =
        .error INVALID_OR_MISSING_API_KEY) := by
  constructor
  · intro s hh he
    unfold check_api_key
    rw [hh, he]
    simp
  · intro hbad g
    unfold check_api_key
    cases hh : dictGet headers X_API_KEY with
    | none => rfl
    | some hv =>
      cases he : expected with
      | none => rfl
      | some ev =>
        have hne : hv ≠ ev := by
          rcases hbad with h1 | h2 | h3
          · rw [hh] at h1
            exact absurd h1 (by simp)
          · rw [he] at h2
            exact absurd h2 (by simp)
          · rw [hh, he] at h3
            intro hc
            exact h3 (by rw [hc])
        simp [hne]

theorem C7_access_guard_witness :
    check_api_key [("X-API-Key", "k1")] (some "k1") (fun n : Nat => n + 1) 41 =
      Except.ok 42 :=
  (C7_access_guard [("X-API-Key", "k1")] (some "k1") (fun n : Nat => n + 1) 41).1
    "k1" rfl rfl

/-- C8: the Bypass Guard with the boolean flag True returns the canned pair
of the bound payload and 200 for every handler (so the handler is not
invoked), for any payload including None; with the flag False it invokes
the handler once on the original argument and passes its result through
unchanged. -/
theorem C8_bypass_guard {α β γ : Type} (payload : β) (a : α) :
    (∀ f : α → γ, conditioned_dummy_response (PyVal.bool true) payload f a =
      Sum.inl (payload, 200)) ∧
    (∀ f : α → γ, conditioned_dummy_response (PyVal.bool false) payload f a =
      Sum.inr (f a)) :=
  ⟨fun _ => rfl, fun _ => rfl⟩

/-- C9: when no session factory was ever established, get_session raises the
fixed connection error instead of returning a session. -/
theorem C9_session_requires_connection {E S M : Type} (db : DatabaseConnection E S M)
    (h : db.session_factory = none) :
    get_session db = .error "Database connection not established" := by
  unfold get_session
  rw [h]

theorem C9_session_requires_connection_witness :
    get_session (⟨none, none, none⟩ : DatabaseConnection Unit Unit Unit) =
      Except.error "Database connection not established" :=
  C9_session_requires_connection _ rfl

/-- C10: the Bypass Guard decides by Python truthiness of the bound flag,
not boolean identity: every truthy value short-circuits to the canned pair
and every falsy value (False, None, 0, the empty string) invokes the
handler. -/
theorem C10_bypass_truthiness {α β γ : Type} (v : PyVal) (payload : β)
    (f : α → γ) (a : α) :
    (truthy v = true → conditioned_dummy_response v payload f a =
      Sum.inl (payload, 200)) ∧
    (truthy v = false → conditioned_dummy_response v payload f a =
      Sum.inr (f a)) := by
  constructor
  · intro h
    simp [conditioned_dummy_response, h]
  · intro h
    simp [conditioned_dummy_response, h]

theorem C10_bypass_truthiness_witness :
    conditioned_dummy_response (PyVal.str "on") (some 7) (fun n : Nat => n + 1) 0 =
      Sum.inl (some 7, 200) ∧
    conditioned_dummy_response (PyVal.int 0) (some 7) (fun n : Nat => n + 1) 0 =
      Sum.inr 1 :=
  ⟨(C10_bypass_truthiness (PyVal.str "on") (some 7) (fun n : Nat => n + 1) 0).1
      (by decide),
   (C10_bypass_truthiness (PyVal.int 0) (some 7) (fun n : Nat => n + 1) 0).2
      (by decide)⟩
